import Mathlib

/-!
Shallow embedding of the quantitative risk core of the Vantis lending
protocol (contracts/risk-engine, contracts/vantis-pool,
contracts/oracle-adapter), together with proofs about its arithmetic.

Conventions of the embedding:
* Rust `i128` values are modelled as `ℤ`; Rust `/` on `i128` truncates
  toward zero, which is `Int.tdiv` (not Lean's `/` on `ℤ`, which is
  Euclidean).  All intermediate products in the embedded functions stay far
  inside the `i128` range for the inputs considered, so unbounded integers
  are faithful.
* Rust `u32`/`u64`/`u128` values are modelled as `ℕ`; unsigned `/` is `ℕ`
  division.  Unsigned subtractions in the source panic on underflow; the
  corresponding theorems carry the hypotheses (`start_discount ≤
  end_discount`, `last_accrual ≤ now`) under which no underflow occurs.
-/

namespace Vantis

/-! ### risk-engine/src/liquidation.rs -/

/-- Field-for-field translation of `DutchAuctionParams`
(risk-engine/src/liquidation.rs).  `u32` discounts and `u64` times are
modelled as `ℕ`. -/
structure DutchAuctionParams where
  start_discount : ℕ
  end_discount : ℕ
  duration : ℕ
  start_time : ℕ
  deriving DecidableEq

/-- Translation of `DutchAuctionParams::current_discount`.  The `u32`
subtraction `end_discount - start_discount` is `ℕ` truncated subtraction
here; the source panics on underflow, so theorems assume
`start_discount ≤ end_discount`. -/
def DutchAuctionParams.current_discount (p : DutchAuctionParams) (current_time : ℕ) : ℕ :=
  if current_time < p.start_time then
    p.start_discount
  else
    let elapsed := current_time - p.start_time
    if p.duration ≤ elapsed then
      p.end_discount
    else
      let progress := elapsed * 10000 / p.duration
      let discount_range := p.end_discount - p.start_discount
      let additional_discount := discount_range * progress / 10000
      p.start_discount + additional_discount

/-- Translation of `calculate_partial_liquidation`
(risk-engine/src/liquidation.rs).  `liquidation_penalty : u32` is `ℕ`,
all `i128` arithmetic is `ℤ` with truncating division. -/
def calculate_partial_liquidation (current_collateral current_debt : ℤ)
    (liquidation_penalty : ℕ) (target_health : ℤ) : ℤ × ℤ :=
  if current_debt = 0 then (0, 0)
  else
    let current_health := Int.tdiv (current_collateral * 10000) current_debt
    if target_health ≤ current_health then (0, 0)
    else
      let penalty_factor := 10000 + (liquidation_penalty : ℤ)
      let numerator := 10000 * current_collateral - target_health * current_debt
      let denominator := penalty_factor - target_health
      if denominator ≤ 0 then
        let collateral := current_collateral
        let debt := Int.tdiv (current_collateral * 10000) penalty_factor
        (collateral, min debt current_debt)
      else
        let debt_to_repay := Int.tdiv numerator denominator
        if debt_to_repay ≤ 0 then (0, 0)
        else
          let collateral_to_seize := Int.tdiv (debt_to_repay * penalty_factor) 10000
          (min collateral_to_seize current_collateral, min debt_to_repay current_debt)

/-! ### vantis-pool/src/health.rs -/

def HEALTH_FACTOR_HEALTHY : ℤ := 11000

def HEALTH_FACTOR_CRITICAL : ℤ := 10200

def HEALTH_FACTOR_LIQUIDATION : ℤ := 10000

/-- Sentinel value `i128::MAX` used when the debt is zero. -/
def i128_MAX : ℤ := 2 ^ 127 - 1

inductive HealthStatus where
  | Healthy
  | Warning
  | Critical
  | Liquidatable
  deriving DecidableEq

structure HealthFactor where
  value : ℤ
  status : HealthStatus
  collateral_value : ℤ
  debt_value : ℤ
  shortfall : ℤ
  available_to_withdraw : ℤ
  deriving DecidableEq

/-- Translation of `HealthFactor::calculate` (vantis-pool/src/health.rs). -/
def HealthFactor.calculate (collateral_value debt_value : ℤ) : HealthFactor :=
  let value := if debt_value = 0 then i128_MAX
    else Int.tdiv (collateral_value * 10000) debt_value
  let status :=
    if HEALTH_FACTOR_HEALTHY ≤ value then HealthStatus.Healthy
    else if HEALTH_FACTOR_CRITICAL ≤ value then HealthStatus.Warning
    else if HEALTH_FACTOR_LIQUIDATION ≤ value then HealthStatus.Critical
    else HealthStatus.Liquidatable
  let shortfall :=
    if value < HEALTH_FACTOR_HEALTHY ∧ 0 < debt_value then
      let needed := Int.tdiv (debt_value * HEALTH_FACTOR_HEALTHY) 10000
      if collateral_value < needed then needed - collateral_value else 0
    else 0
  let available_to_withdraw :=
    if debt_value = 0 then collateral_value
    else
      let min_collateral := Int.tdiv (debt_value * HEALTH_FACTOR_HEALTHY) 10000
      if min_collateral < collateral_value then collateral_value - min_collateral else 0
  { value := value, status := status, collateral_value := collateral_value,
    debt_value := debt_value, shortfall := shortfall,
    available_to_withdraw := available_to_withdraw }

/-- Translation of `calculate_liquidation_amount` (vantis-pool/src/health.rs),
the pool's copy of the liquidation solver. -/
def calculate_liquidation_amount (current_collateral current_debt : ℤ)
    (liquidation_penalty : ℕ) (target_health : ℤ) : ℤ × ℤ :=
  if current_debt = 0 then (0, 0)
  else
    let penalty_factor := 10000 + (liquidation_penalty : ℤ)
    let target_collateral := Int.tdiv (target_health * current_debt) 10000
    let collateral_excess := current_collateral - target_collateral
    if 0 ≤ collateral_excess then (0, 0)
    else
      let deficit := -collateral_excess
      let denominator := penalty_factor - target_health
      if denominator ≤ 0 then (current_collateral, current_debt)
      else
        let debt_to_repay := Int.tdiv (deficit * 10000) denominator
        let collateral_to_liquidate := Int.tdiv (debt_to_repay * penalty_factor) 10000
        (min collateral_to_liquidate current_collateral, min debt_to_repay current_debt)

/-! ### risk-engine/src/stop_loss.rs -/

/-- Translation of `calculate_swap_amount` (risk-engine/src/stop_loss.rs). -/
def calculate_swap_amount (current_collateral current_debt current_health target_health : ℤ) : ℤ :=
  if current_debt = 0 ∨ target_health ≤ current_health then 0
  else
    let target_normalized := Int.tdiv (target_health * current_debt) 10000
    let numerator := target_normalized - current_collateral
    let denominator := target_health - 10000
    if denominator ≤ 0 then 0
    else
      let swap_amount := Int.tdiv (numerator * 10000) denominator
      if current_collateral < swap_amount then current_collateral
      else if swap_amount < 0 then 0
      else swap_amount

/-! ### integer_sqrt (risk-engine/src/volatility.rs and its two textually
identical copies in oracle-adapter/src/lib.rs and risk-engine/src/lib.rs) -/

/-- Newton-iteration loop of `integer_sqrt`: for positive arguments the Rust
`i128` arithmetic is `ℕ` arithmetic.  `sqrtGo n x y` is the state of the
`while y < x` loop with accumulator `x` and freshly computed `y`. -/
def sqrtGo (n x y : ℕ) : ℕ :=
  if h : y < x then sqrtGo n y ((y + n / y) / 2) else x
termination_by x
decreasing_by exact h

/-- Translation of `integer_sqrt` (risk-engine/src/volatility.rs): guards for
`n ≤ 0` and `n = 1`, then the Newton loop started at `x = n`,
`y = (n + 1) / 2`. -/
def integer_sqrt (n : ℤ) : ℤ :=
  if n ≤ 0 then 0
  else if n = 1 then 1
  else ((sqrtGo n.toNat n.toNat ((n.toNat + 1) / 2) : ℕ) : ℤ)

/-- The textually identical copy of `integer_sqrt` in
oracle-adapter/src/lib.rs. -/
def OracleAdapter.integer_sqrt (n : ℤ) : ℤ :=
  if n ≤ 0 then 0
  else if n = 1 then 1
  else ((sqrtGo n.toNat n.toNat ((n.toNat + 1) / 2) : ℕ) : ℤ)

/-- The textually identical copy of `integer_sqrt` in
risk-engine/src/lib.rs. -/
def RiskEngineLib.integer_sqrt (n : ℤ) : ℤ :=
  if n ≤ 0 then 0
  else if n = 1 then 1
  else ((sqrtGo n.toNat n.toNat ((n.toNat + 1) / 2) : ℕ) : ℤ)

/-! ### risk-engine/src/volatility.rs: volatility-adjusted LTV -/

/-- Translation of `calculate_adjusted_ltv` (risk-engine/src/volatility.rs).
The source's `saturating_sub` on `i128` is ordinary subtraction here: the
operands are bounded by `u32::MAX` and by
`u32::MAX^2 * integer_sqrt(u32::MAX) * 1000 / 19 / 10^7 < 2^70`, far inside
the `i128` range, so saturation never fires.  The final `as u32` cast is
`Int.toNat`, taken only on the branch where the value is between `min_ltv`
and `base_ltv`. -/
def calculate_adjusted_ltv (base_ltv volatility k_factor time_horizon_days min_ltv : ℕ) : ℕ :=
  let sqrt_days := integer_sqrt (time_horizon_days : ℤ)
  let sqrt_t := Int.tdiv (sqrt_days * 1000) 19
  let adjustment := Int.tdiv ((k_factor : ℤ) * (volatility : ℤ) * sqrt_t) (1000 * 10000)
  let adjusted := (base_ltv : ℤ) - adjustment
  if adjusted < (min_ltv : ℤ) then min_ltv else adjusted.toNat

/-! ### vantis-pool/src/borrow.rs and accrue_interest (vantis-pool/src/lib.rs) -/

/-- Translation of `calculate_interest` (vantis-pool/src/borrow.rs). -/
def calculate_interest (principal : ℤ) (rate : ℕ) (time_elapsed : ℕ) : ℤ :=
  if principal ≤ 0 ∨ rate = 0 ∨ time_elapsed = 0 then 0
  else Int.tdiv (principal * (rate : ℤ) * (time_elapsed : ℤ))
    ((365 * 24 * 60 * 60 : ℤ) * 10000)

/-- The fields of the pool's `BorrowData` record touched by
`accrue_interest`. -/
structure BorrowData where
  principal : ℤ
  accrued_interest : ℤ
  last_accrual : ℕ
  deriving DecidableEq

/-- Translation of `VantisPool::accrue_interest` (vantis-pool/src/lib.rs),
as a pure transition on the stored `BorrowData`, given the current ledger
timestamp and the interest rate read from storage.  The `u64` subtraction
`current_time - last_accrual` panics on underflow in the source; theorems
assume `last_accrual ≤ current_time`. -/
def accrue_interest (borrow_data : BorrowData) (interest_rate : ℕ) (current_time : ℕ) : BorrowData :=
  if borrow_data.principal = 0 then borrow_data
  else
    let time_elapsed := current_time - borrow_data.last_accrual
    if time_elapsed = 0 then borrow_data
    else
      let interest := Int.tdiv
        (borrow_data.principal * (interest_rate : ℤ) * (time_elapsed : ℤ))
        ((365 * 24 * 60 * 60 : ℤ) * 10000)
      { borrow_data with
          accrued_interest := borrow_data.accrued_interest + interest,
          last_accrual := current_time }

/-! ### oracle-adapter/src/lib.rs: asset registry and volatility storage -/

/-- Soroban `Symbol`, modelled as a string. -/
abbrev Symbol := String

/-- Translation of the oracle adapter's `VolatilityData` record. -/
structure VolatilityData where
  volatility_30d : ℕ
  volatility_7d : ℕ
  last_updated : ℕ
  price_history : List ℤ
  deriving DecidableEq

inductive OracleError where
  | AssetNotSupported
  | InsufficientHistory
  deriving DecidableEq

/-- The oracle adapter's storage relevant to `add_asset` / `get_volatility`:
the supported-assets vector and the per-symbol persistent
`(Volatility, symbol)` entries. -/
structure OracleState where
  assets : List Symbol
  volatility : Symbol → Option VolatilityData

/-- Translation of `is_asset_supported`: linear scan of the assets vector. -/
def is_asset_supported (s : OracleState) (asset : Symbol) : Bool :=
  s.assets.contains asset

/-- Translation of the state change performed by `add_asset`: push the symbol
onto the assets vector and store a zeroed `VolatilityData` record for it
(authorization and event emission are outside the embedding). -/
def add_asset (s : OracleState) (symbol : Symbol) : OracleState :=
  { assets := s.assets ++ [symbol],
    volatility := fun a =>
      if a = symbol then
        some { volatility_30d := 0, volatility_7d := 0, last_updated := 0,
               price_history := [] }
      else s.volatility a }

/-- Translation of `get_volatility`: `require_asset_supported` then the
stored record, with `InsufficientHistory` when the entry is missing. -/
def get_volatility (s : OracleState) (asset : Symbol) : Except OracleError VolatilityData :=
  if is_asset_supported s asset then
    match s.volatility asset with
    | some v => Except.ok v
    | none => Except.error OracleError.InsufficientHistory
  else Except.error OracleError.AssetNotSupported

end Vantis

namespace Vantis

/-! ## Helper lemmas -/

/-- One Newton step from any positive `x` stays at or above `⌊√n⌋`. -/
lemma newton_ge_sqrt (n x : ℕ) (hx : 1 ≤ x) : Nat.sqrt n ≤ (x + n / x) / 2 := by
  by_contra hlt
  push_neg at hlt
  have h2 : x + n / x < Nat.sqrt n * 2 := (Nat.div_lt_iff_lt_mul (by norm_num)).mp hlt
  have hmod : n % x < x := Nat.mod_lt _ hx
  have hdm : x * (n / x) + n % x = n := Nat.div_add_mod n x
  have hs : Nat.sqrt n * Nat.sqrt n ≤ n := Nat.sqrt_le n
  have hxz : (1 : ℤ) ≤ (x : ℤ) := by exact_mod_cast hx
  have h2z : (x : ℤ) + (n / x : ℕ) < (Nat.sqrt n : ℤ) * 2 := by exact_mod_cast h2
  have hdmz : (x : ℤ) * (n / x : ℕ) + (n % x : ℕ) = (n : ℤ) := by exact_mod_cast hdm
  have hmodz : ((n % x : ℕ) : ℤ) < (x : ℤ) := by exact_mod_cast hmod
  have hsz : (Nat.sqrt n : ℤ) * (Nat.sqrt n : ℤ) ≤ (n : ℤ) := by exact_mod_cast hs
  have hq : ((n / x : ℕ) : ℤ) ≤ 2 * (Nat.sqrt n : ℤ) - 1 - (x : ℤ) := by linarith
  have key : (x : ℤ) * (n / x : ℕ) ≤ (x : ℤ) * (2 * (Nat.sqrt n : ℤ) - 1 - (x : ℤ)) :=
    mul_le_mul_of_nonneg_left hq (by linarith)
  nlinarith [sq_nonneg ((Nat.sqrt n : ℤ) - (x : ℤ))]

/-- The Newton loop started at or above `⌊√n⌋` returns exactly `⌊√n⌋`. -/
lemma sqrtGo_eq_sqrt (n : ℕ) (hn : 1 ≤ n) :
    ∀ x : ℕ, 1 ≤ x → Nat.sqrt n ≤ x → sqrtGo n x ((x + n / x) / 2) = Nat.sqrt n := by
  intro x
  induction x using Nat.strong_induction_on with
  | _ x ih =>
    intro hx hsx
    rw [sqrtGo]
    split
    case isTrue h =>
      have hy : Nat.sqrt n ≤ (x + n / x) / 2 := newton_ge_sqrt n x hx
      have hy1 : 1 ≤ (x + n / x) / 2 := le_trans (Nat.sqrt_pos.mpr hn) hy
      exact ih _ h hy1 hy
    case isFalse h =>
      push_neg at h
      have h2 : x * 2 ≤ x + n / x := (Nat.le_div_iff_mul_le (by norm_num)).mp h
      have hxq : x ≤ n / x := by omega
      have hxx : x * x ≤ n :=
        le_trans (Nat.mul_le_mul_left x hxq) (by
          calc x * (n / x) = n / x * x := Nat.mul_comm _ _
          _ ≤ n := Nat.div_mul_le_self n x)
      have : x ≤ Nat.sqrt n := Nat.le_sqrt.mpr hxx
      omega

/-- On nonnegative inputs, `integer_sqrt` computes `Nat.sqrt`. -/
lemma integer_sqrt_eq_sqrt (n : ℤ) (h : 0 ≤ n) : integer_sqrt n = Nat.sqrt n.toNat := by
  unfold integer_sqrt
  rcases lt_trichotomy n 0 with hneg | hzero | hpos
  · omega
  · subst hzero; norm_num
  · have h0 : ¬ n ≤ 0 := by omega
    rw [if_neg h0]
    by_cases h1 : n = 1
    · subst h1; norm_num
    · rw [if_neg h1]
      have hn1 : 1 ≤ n.toNat := by omega
      have hdiv : n.toNat / n.toNat = 1 := Nat.div_self (by omega)
      have hinit : (n.toNat + 1) / 2 = (n.toNat + n.toNat / n.toNat) / 2 := by rw [hdiv]
      rw [hinit, sqrtGo_eq_sqrt n.toNat hn1 n.toNat hn1 (Nat.sqrt_le_self _)]

/-- Specialization of the bridge to `ℕ` arguments. -/
lemma integer_sqrt_ofNat (d : ℕ) : integer_sqrt (d : ℤ) = (Nat.sqrt d : ℤ) := by
  rw [integer_sqrt_eq_sqrt _ (by positivity), Int.toNat_natCast]

/-- Direct characterization of `Nat.sqrt` by the two defining inequalities. -/
lemma nat_sqrt_eq {n r : ℕ} (h1 : r * r ≤ n) (h2 : n < (r + 1) * (r + 1)) : Nat.sqrt n = r :=
  le_antisymm (Nat.lt_succ_iff.mp (Nat.sqrt_lt.mpr h2)) (Nat.le_sqrt.mpr h1)

/-- Evaluation of `integer_sqrt` at the 30-day horizon used in the tests. -/
lemma integer_sqrt_thirty : integer_sqrt ((30 : ℕ) : ℤ) = 5 := by
  have h5 : Nat.sqrt 30 = 5 := nat_sqrt_eq (by norm_num) (by norm_num)
  rw [integer_sqrt_ofNat, h5]
  norm_num

/-! ## Claim C9 -/

/-- C9: for every nonnegative `x`, `integer_sqrt x` terminates (it is a total
function of a well-founded recursion) and returns `r = ⌊√x⌋`, i.e.
`r*r ≤ x < (r+1)*(r+1)`; in particular `integer_sqrt 0 = 0` and
`integer_sqrt 1 = 1`, and the three textually identical copies of the
function (volatility.rs, oracle-adapter/lib.rs, risk-engine/lib.rs) agree. -/
theorem C9_integer_sqrt_floor :
    (∀ n : ℤ, 0 ≤ n →
      integer_sqrt n * integer_sqrt n ≤ n ∧ n < (integer_sqrt n + 1) * (integer_sqrt n + 1)) ∧
    integer_sqrt 0 = 0 ∧ integer_sqrt 1 = 1 ∧
    (∀ n : ℤ, OracleAdapter.integer_sqrt n = integer_sqrt n) ∧
    (∀ n : ℤ, RiskEngineLib.integer_sqrt n = integer_sqrt n) := by
  refine ⟨?_, by norm_num [integer_sqrt], by norm_num [integer_sqrt],
    fun n => rfl, fun n => rfl⟩
  intro n hn
  rw [integer_sqrt_eq_sqrt n hn]
  constructor
  · have h := Nat.sqrt_le n.toNat
    have h2 : ((Nat.sqrt n.toNat * Nat.sqrt n.toNat : ℕ) : ℤ) ≤ (n.toNat : ℤ) := by
      exact_mod_cast h
    rw [Int.toNat_of_nonneg hn] at h2
    push_cast at h2 ⊢
    linarith
  · have h := Nat.lt_succ_sqrt n.toNat
    have h2 : (n.toNat : ℤ) < ((Nat.sqrt n.toNat).succ * (Nat.sqrt n.toNat).succ : ℕ) := by
      exact_mod_cast h
    rw [Int.toNat_of_nonneg hn] at h2
    push_cast at h2 ⊢
    linarith

/-- Witness for C9 at the concrete input 30. -/
theorem C9_witness :
    integer_sqrt 30 * integer_sqrt 30 ≤ 30 ∧
    (30 : ℤ) < (integer_sqrt 30 + 1) * (integer_sqrt 30 + 1) :=
  C9_integer_sqrt_floor.1 30 (by norm_num)

/-! ## Claim C1 -/

/-- C1: for `D = 0` or current health `⌊C*10000/D⌋ ≥ target_health` the risk
engine's liquidation solver returns `(0, 0)` (in particular at
`(1200, 1000, 5%, 10500)`); for `D > 0`, health below target and
`penalty_factor = 10000 + penalty > target_health`, it returns repay
`R = ⌊(10000*C − target*D)/(penalty_factor − target)⌋` capped at `D` and
seized `⌊R*penalty_factor/10000⌋` capped at `C`, returning `(0, 0)` whenever
the computed `R ≤ 0`. -/
theorem C1_partial_liquidation_formula :
    (∀ (C : ℤ) (p : ℕ) (H : ℤ), calculate_partial_liquidation C 0 p H = (0, 0)) ∧
    (∀ (C D : ℤ) (p : ℕ) (H : ℤ), D ≠ 0 → H ≤ Int.tdiv (C * 10000) D →
      calculate_partial_liquidation C D p H = (0, 0)) ∧
    (∀ (C D : ℤ) (p : ℕ) (H : ℤ), 0 < D → Int.tdiv (C * 10000) D < H →
      H < 10000 + (p : ℤ) →
      calculate_partial_liquidation C D p H =
        if Int.tdiv (10000 * C - H * D) (10000 + (p : ℤ) - H) ≤ 0 then (0, 0)
        else
          (min (Int.tdiv (Int.tdiv (10000 * C - H * D) (10000 + (p : ℤ) - H) * (10000 + (p : ℤ))) 10000) C,
           min (Int.tdiv (10000 * C - H * D) (10000 + (p : ℤ) - H)) D)) ∧
    calculate_partial_liquidation 1200 1000 500 10500 = (0, 0) := by
  refine ⟨?_, ?_, ?_, by decide⟩
  · intro C p H
    simp [calculate_partial_liquidation]
  · intro C D p H hD hH
    simp only [calculate_partial_liquidation]
    rw [if_neg hD, if_pos hH]
  · intro C D p H hD hh hP
    simp only [calculate_partial_liquidation]
    rw [if_neg (by omega : ¬ D = 0), if_neg (not_le.mpr hh),
      if_neg (by omega : ¬ 10000 + (p : ℤ) - H ≤ 0)]

/-- Witness for C1 at the unhealthy position (950, 1000, 5%, target 10300):
the computed repay is negative, so the solver returns (0, 0). -/
theorem C1_witness : calculate_partial_liquidation 950 1000 500 10300 = (0, 0) := by
  have h := C1_partial_liquidation_formula.2.2.1 950 1000 500 10300
    (by norm_num) (by decide) (by decide)
  rw [h]
  decide

/-! ## Claim C2 -/

/-- C2 counterexample: in the degenerate case (`penalty_factor = 10000 ≤
target 10500`) with collateral 500 and debt 1000, the risk engine repays only
`⌊500*10000/10000⌋ = 500`, not the full debt `D = 1000` the claim states. -/
theorem C2_counterexample :
    calculate_partial_liquidation 500 1000 0 10500 = (500, 500) ∧
    ((500 : ℤ), (500 : ℤ)) ≠ ((500 : ℤ), (1000 : ℤ)) := by decide

/-- C2 (amended): in the degenerate case `penalty_factor ≤ target_health`
with nonzero debt and health below target, the pool's solver liquidates the
entire position, returning exactly `(C, D)`; the risk engine's solver seizes
all collateral `C` but repays only `min(⌊C*10000/penalty_factor⌋, D)`. -/
theorem C2_degenerate_liquidation :
    (∀ (C D : ℤ) (p : ℕ) (H : ℤ), D ≠ 0 → C < Int.tdiv (H * D) 10000 →
      10000 + (p : ℤ) - H ≤ 0 →
      calculate_liquidation_amount C D p H = (C, D)) ∧
    (∀ (C D : ℤ) (p : ℕ) (H : ℤ), D ≠ 0 → Int.tdiv (C * 10000) D < H →
      10000 + (p : ℤ) - H ≤ 0 →
      calculate_partial_liquidation C D p H =
        (C, min (Int.tdiv (C * 10000) (10000 + (p : ℤ))) D)) := by
  constructor
  · intro C D p H hD hC hden
    simp only [calculate_liquidation_amount]
    rw [if_neg hD, if_neg (by omega), if_pos hden]
  · intro C D p H hD hh hden
    simp only [calculate_partial_liquidation]
    rw [if_neg hD, if_neg (not_le.mpr hh), if_pos hden]

/-- Witness for C2 at (500, 1000, penalty 0, target 10500): the pool solver
liquidates the whole position. -/
theorem C2_witness : calculate_liquidation_amount 500 1000 0 10500 = (500, 1000) :=
  C2_degenerate_liquidation.1 500 1000 0 10500 (by norm_num) (by decide) (by decide)

/-! ## Claim C3 -/

/-- For nonpositive numerator and nonnegative denominator, truncating
division is nonpositive. -/
lemma tdiv_nonpos_of_nonpos_of_nonneg {a b : ℤ} (ha : a ≤ 0) (hb : 0 ≤ b) : a.tdiv b ≤ 0 := by
  have h := Int.tdiv_nonneg (a := -a) (b := b) (by omega) hb
  rw [Int.neg_tdiv] at h
  omega

/-- When the truncated health value is at least 11000, the collateral needed
for the healthy threshold is already covered. -/
lemma needed_le_collateral {C D : ℤ} (hD : 0 < D)
    (hv : 11000 ≤ Int.tdiv (C * 10000) D) :
    Int.tdiv (D * 11000) 10000 ≤ C := by
  have hCpos : 0 < C * 10000 := by
    by_contra hle
    push_neg at hle
    have := tdiv_nonpos_of_nonpos_of_nonneg hle hD.le
    omega
  have heq : Int.tdiv (C * 10000) D = C * 10000 / D := Int.tdiv_eq_ediv (by omega) hD.le
  rw [heq] at hv
  have hmul : 11000 * D ≤ C * 10000 := (Int.le_ediv_iff_mul_le hD).mp hv
  have heq2 : Int.tdiv (D * 11000) 10000 = D * 11000 / 10000 :=
    Int.tdiv_eq_ediv (by positivity) (by norm_num)
  rw [heq2]
  calc D * 11000 / 10000 ≤ C * 10000 / 10000 := by
        apply Int.ediv_le_ediv (by norm_num)
        linarith
  _ = C := Int.mul_ediv_cancel C (by norm_num)

/-- C3: `HealthFactor::calculate` returns the `i128::MAX` sentinel when the
debt is zero and the truncated ratio `⌊C*10000/D⌋` otherwise; its status is
Healthy iff value ≥ 11000, Warning iff 10200 ≤ value < 11000, Critical iff
10000 ≤ value < 10200, Liquidatable iff value < 10000; its shortfall is
`max(0, ⌊D*11000/10000⌋ − C)` (0 when the debt is zero) and its withdrawable
amount is `C` when the debt is zero and `max(0, C − ⌊D*11000/10000⌋)`
otherwise. -/
theorem C3_health_factor_calculate :
    ∀ (C D : ℤ), 0 ≤ D →
      ((HealthFactor.calculate C D).value
          = if D = 0 then i128_MAX else Int.tdiv (C * 10000) D) ∧
      ((HealthFactor.calculate C D).status = HealthStatus.Healthy ↔
        11000 ≤ (HealthFactor.calculate C D).value) ∧
      ((HealthFactor.calculate C D).status = HealthStatus.Warning ↔
        10200 ≤ (HealthFactor.calculate C D).value ∧
          (HealthFactor.calculate C D).value < 11000) ∧
      ((HealthFactor.calculate C D).status = HealthStatus.Critical ↔
        10000 ≤ (HealthFactor.calculate C D).value ∧
          (HealthFactor.calculate C D).value < 10200) ∧
      ((HealthFactor.calculate C D).status = HealthStatus.Liquidatable ↔
        (HealthFactor.calculate C D).value < 10000) ∧
      ((HealthFactor.calculate C D).shortfall
          = if D = 0 then 0 else max 0 (Int.tdiv (D * 11000) 10000 - C)) ∧
      ((HealthFactor.calculate C D).available_to_withdraw
          = if D = 0 then C else max 0 (C - Int.tdiv (D * 11000) 10000)) := by
  intro C D hD
  simp only [HealthFactor.calculate, HEALTH_FACTOR_HEALTHY, HEALTH_FACTOR_CRITICAL,
    HEALTH_FACTOR_LIQUIDATION]
  by_cases hD0 : D = 0
  · subst hD0
    norm_num [i128_MAX]
    decide
  · have hDpos : 0 < D := by omega
    simp only [if_neg hD0]
    set v := Int.tdiv (C * 10000) D with hv
    refine ⟨trivial, ?_, ?_, ?_, ?_, ?_, ?_⟩
    · split_ifs with h1 h2 h3 <;> simp_all
    · split_ifs with h1 h2 h3 <;> simp_all <;> omega
    · split_ifs with h1 h2 h3 <;> simp_all <;> omega
    · split_ifs with h1 h2 h3 <;> simp_all <;> omega
    · by_cases hlt : v < 11000
      · rw [if_pos ⟨hlt, hDpos⟩, max_def]
        split_ifs <;> omega
      · rw [if_neg (by tauto), max_def]
        push_neg at hlt
        have := needed_le_collateral hDpos hlt
        split_ifs <;> omega
    · rw [max_def]
      split_ifs <;> omega

/-- Witness for C3 at collateral 1000, debt 1000: shortfall is 100. -/
theorem C3_witness : (HealthFactor.calculate 1000 1000).shortfall = 100 := by
  have h := (C3_health_factor_calculate 1000 1000 (by norm_num)).2.2.2.2.2.1
  rw [h]
  decide

/-! ## Claim C4 -/

/-- C4 counterexample: with zero volatility but `base_ltv = 2000` below the
floor `min_ltv = 3000`, `calculate_adjusted_ltv` returns the floor 3000, not
`base_ltv` as the claim states for every floor. -/
theorem C4_counterexample :
    calculate_adjusted_ltv 2000 0 100 30 3000 = 3000 ∧ (3000 : ℕ) ≠ 2000 := by
  constructor
  · simp only [calculate_adjusted_ltv]
    rw [integer_sqrt_thirty]
    decide
  · decide

/-- C4 (amended): with zero volatility `calculate_adjusted_ltv` returns
exactly `base_ltv` whenever `base_ltv ≥ min_ltv` (in particular at the
spec example (7500, 0, 100, 30, 3000)); when `base_ltv < min_ltv` the floor
wins even at zero volatility.  For every input the result is never below
`min_ltv`. -/
theorem C4_adjusted_ltv_amended :
    (∀ b k d m : ℕ, m ≤ b → calculate_adjusted_ltv b 0 k d m = b) ∧
    (∀ b v k d m : ℕ, m ≤ calculate_adjusted_ltv b v k d m) ∧
    calculate_adjusted_ltv 7500 0 100 30 3000 = 7500 := by
  refine ⟨?_, ?_, ?_⟩
  · intro b k d m hmb
    simp only [calculate_adjusted_ltv, Nat.cast_zero, mul_zero, zero_mul, Int.zero_tdiv,
      sub_zero]
    rw [if_neg (by exact_mod_cast not_lt.mpr hmb)]
    exact Int.toNat_natCast b
  · intro b v k d m
    simp only [calculate_adjusted_ltv]
    split
    · exact le_refl m
    · next h =>
        push_neg at h
        have h2 := Int.toNat_le_toNat h
        simpa using h2
  · simp only [calculate_adjusted_ltv]
    rw [integer_sqrt_thirty]
    decide

/-- Witness for C4 with zero volatility above the floor at a 99-day horizon. -/
theorem C4_witness : calculate_adjusted_ltv 7500 0 100 99 3000 = 7500 :=
  C4_adjusted_ltv_amended.1 7500 100 99 3000 (by norm_num)

/-! ## Claim C5 -/

/-- C5 counterexample: on the under-target position (collateral 10000, debt
10000, penalty 20%, target 10500) the risk engine computes a negative repay
and returns (0, 0), while the pool solver flips the sign of the numerator and
returns (3999, 3333); the two implementations do not agree. -/
theorem C5_counterexample :
    calculate_partial_liquidation 10000 10000 2000 10500 = (0, 0) ∧
    calculate_liquidation_amount 10000 10000 2000 10500 = (3999, 3333) ∧
    ((0 : ℤ), (0 : ℤ)) ≠ ((3999 : ℤ), (3333 : ℤ)) := by decide

/-- C5 (amended): the two solvers agree — both returning (0, 0) — whenever
the debt is zero or the position is already at or above the target health
(`target*D ≤ 10000*C` with `target ≥ 0`); on positions below target they
disagree in general, as the counterexample shows. -/
theorem C5_solvers_agree_when_healthy :
    ∀ (C D : ℤ) (p : ℕ) (H : ℤ), 0 ≤ H →
      (D = 0 ∨ (0 < D ∧ H * D ≤ 10000 * C)) →
      calculate_partial_liquidation C D p H = calculate_liquidation_amount C D p H ∧
      calculate_partial_liquidation C D p H = (0, 0) := by
  intro C D p H hH hcase
  rcases hcase with h0 | ⟨hD, hle⟩
  · subst h0
    constructor
    · simp [calculate_partial_liquidation, calculate_liquidation_amount]
    · simp [calculate_partial_liquidation]
  · have hHD : 0 ≤ H * D := mul_nonneg hH hD.le
    have hC10 : 0 ≤ C * 10000 := by linarith
    have h1 : H ≤ Int.tdiv (C * 10000) D := by
      rw [Int.tdiv_eq_ediv hC10 hD.le]
      exact (Int.le_ediv_iff_mul_le hD).mpr (by linarith)
    have h2 : Int.tdiv (H * D) 10000 ≤ C := by
      rw [Int.tdiv_eq_ediv hHD (by norm_num)]
      calc H * D / 10000 ≤ C * 10000 / 10000 := by
            apply Int.ediv_le_ediv (by norm_num)
            linarith
      _ = C := Int.mul_ediv_cancel C (by norm_num)
    have hpart : calculate_partial_liquidation C D p H = (0, 0) := by
      simp only [calculate_partial_liquidation]
      rw [if_neg (by omega : ¬ D = 0), if_pos h1]
    have hpool : calculate_liquidation_amount C D p H = (0, 0) := by
      simp only [calculate_liquidation_amount]
      rw [if_neg (by omega : ¬ D = 0), if_pos (by omega : (0:ℤ) ≤ C - Int.tdiv (H * D) 10000)]
    exact ⟨by rw [hpart, hpool], hpart⟩

/-- Witness for C5 on a healthy position: both solvers return (0, 0). -/
theorem C5_witness :
    calculate_partial_liquidation 2 1 500 10500 = calculate_liquidation_amount 2 1 500 10500 :=
  (C5_solvers_agree_when_healthy 2 1 500 10500 (by norm_num)
    (Or.inr ⟨by norm_num, by norm_num⟩)).1

/-! ## Claim C6 -/

/-- C6: the stop-loss swap solver returns 0 when the debt is zero or current
health is at or above target; with debt nonzero and health below target it
returns 0 when `target_health ≤ 10000`, and otherwise the truncated
`S = ⌊(⌊target*D/10000⌋ − C) * 10000 / (target − 10000)⌋` clamped to
`[0, C]`. -/
theorem C6_swap_amount_formula :
    (∀ (C D h H : ℤ), D = 0 ∨ H ≤ h → calculate_swap_amount C D h H = 0) ∧
    (∀ (C D h H : ℤ), h < H → H ≤ 10000 → calculate_swap_amount C D h H = 0) ∧
    (∀ (C D h H : ℤ), D ≠ 0 → h < H → 10000 < H → 0 ≤ C →
      calculate_swap_amount C D h H =
        max 0 (min (Int.tdiv ((Int.tdiv (H * D) 10000 - C) * 10000) (H - 10000)) C)) := by
  refine ⟨?_, ?_, ?_⟩
  · intro C D h H hcase
    simp only [calculate_swap_amount]
    rw [if_pos hcase]
  · intro C D h H hh hH
    simp only [calculate_swap_amount]
    split_ifs with h1 h2 h3 h4 <;> first | rfl | omega
  · intro C D h H hD hh hH hC
    simp only [calculate_swap_amount]
    rw [if_neg (by omega : ¬ (D = 0 ∨ H ≤ h)), if_neg (by omega : ¬ H - 10000 ≤ 0)]
    rw [max_def, min_def]
    split_ifs <;> omega

/-- Witness for C6 at (1000, 1000, health 10000, target 10500): swap 1000. -/
theorem C6_witness : calculate_swap_amount 1000 1000 10000 10500 = 1000 := by
  have h := C6_swap_amount_formula.2.2 1000 1000 10000 10500
    (by norm_num) (by norm_num) (by norm_num) (by norm_num)
  rw [h]
  decide

/-! ## Claim C7 -/

/-- C7 counterexample: for the auction (start 0, end 10, duration 5,
start_time 0), at `t = start_time + duration/2 = 2` the discount is 4, not
the midpoint value 5: with an odd duration the truncated progress
`⌊2*10000/5⌋ = 4000` undershoots one half. -/
theorem C7_counterexample :
    DutchAuctionParams.current_discount ⟨0, 10, 5, 0⟩ (0 + 5 / 2) = 4 ∧
    0 + (10 - 0) / 2 = 5 := by decide

/-- C7 (amended): for every auction with `start_discount ≤ end_discount` and
`duration > 0`, `current_discount` returns `start_discount` for
`t ≤ start_time`, `end_discount` for `t ≥ start_time + duration`, and the
truncating linear interpolation
`start + (end − start) * ⌊(t − start_time)*10000/duration⌋ / 10000` in
between; at `t = start_time + duration/2` it returns the midpoint value
`start + (end − start)/2` when the duration is even (for odd durations
truncation can undershoot the midpoint, as the counterexample shows). -/
theorem C7_dutch_auction_amended :
    ∀ a : DutchAuctionParams, a.start_discount ≤ a.end_discount → 0 < a.duration →
      (∀ t, t ≤ a.start_time → a.current_discount t = a.start_discount) ∧
      (∀ t, a.start_time + a.duration ≤ t → a.current_discount t = a.end_discount) ∧
      (∀ t, a.start_time ≤ t → t < a.start_time + a.duration →
        a.current_discount t = a.start_discount +
          (a.end_discount - a.start_discount) * ((t - a.start_time) * 10000 / a.duration) / 10000) ∧
      (a.duration % 2 = 0 →
        a.current_discount (a.start_time + a.duration / 2) =
          a.start_discount + (a.end_discount - a.start_discount) / 2) := by
  rintro ⟨s, e, d, st⟩ hse hd
  simp only [DutchAuctionParams.current_discount] at *
  refine ⟨?_, ?_, ?_, ?_⟩
  · intro t ht
    by_cases h : t < st
    · rw [if_pos h]
    · rw [if_neg h]
      have ht2 : t = st := by omega
      subst ht2
      rw [if_neg (by omega)]
      simp
  · intro t ht
    rw [if_neg (by omega), if_pos (by omega)]
  · intro t h1 h2
    rw [if_neg (by omega), if_neg (by omega)]
  · intro heven
    obtain ⟨m, hm⟩ : ∃ m, d = 2 * m := ⟨d / 2, by omega⟩
    subst hm
    have hm1 : 0 < m := by omega
    have harg : st + 2 * m / 2 = st + m := by omega
    rw [harg]
    rw [if_neg (by omega), if_neg (by omega)]
    have h3 : st + m - st = m := by omega
    rw [h3]
    have h4 : m * 10000 / (2 * m) = 5000 := by
      rw [mul_comm 2 m, mul_comm m 10000]
      rw [show (10000 : ℕ) * m = m * 10000 from mul_comm _ _]
      rw [Nat.mul_div_mul_left 10000 2 hm1]
    rw [h4]
    have h5 : (e - s) * 5000 / 10000 = (e - s) / 2 := by
      rw [show (10000 : ℕ) = 5000 * 2 from rfl, mul_comm (e - s) 5000]
      exact Nat.mul_div_mul_left (e - s) 2 (by norm_num)
    rw [h5]

/-- Witness for C7 at the test auction (0 → 500 bp over 3600 s from t=1000):
halfway through, the discount is the midpoint 250. -/
theorem C7_witness : DutchAuctionParams.current_discount ⟨0, 500, 3600, 1000⟩ 2800 = 250 := by
  have h := (C7_dutch_auction_amended ⟨0, 500, 3600, 1000⟩ (by norm_num) (by norm_num)).2.2.2
    (by norm_num)
  norm_num at h
  exact h

/-! ## Claim C8 -/

/-- C8: `calculate_interest` computes `⌊P*rate*Δt / (31536000*10000)⌋` for
every nonnegative principal (0 when the principal, rate or elapsed time is
zero), and in particular 100 for principal 1000 at 10% over one year;
`accrue_interest` leaves the position unchanged when the principal is zero or
no time has elapsed, and otherwise adds that interest to `accrued_interest`
and advances `last_accrual` to the current time. -/
theorem C8_interest_accrual :
    (∀ (P : ℤ) (r t : ℕ), 0 ≤ P →
      calculate_interest P r t =
        Int.tdiv (P * (r : ℤ) * (t : ℤ)) ((365 * 24 * 60 * 60 : ℤ) * 10000)) ∧
    calculate_interest 1000 1000 31536000 = 100 ∧
    (∀ (bd : BorrowData) (rate now : ℕ), bd.principal = 0 →
      accrue_interest bd rate now = bd) ∧
    (∀ (bd : BorrowData) (rate : ℕ), accrue_interest bd rate bd.last_accrual = bd) ∧
    (∀ (bd : BorrowData) (rate now : ℕ), bd.principal ≠ 0 → bd.last_accrual < now →
      accrue_interest bd rate now =
        { principal := bd.principal,
          accrued_interest := bd.accrued_interest +
            Int.tdiv (bd.principal * (rate : ℤ) * ((now - bd.last_accrual : ℕ) : ℤ))
              ((365 * 24 * 60 * 60 : ℤ) * 10000),
          last_accrual := now }) := by
  refine ⟨?_, by decide, ?_, ?_, ?_⟩
  · intro P r t hP
    simp only [calculate_interest]
    split_ifs with h
    · rcases h with h | h | h
      · have hP0 : P = 0 := le_antisymm h hP
        subst hP0
        simp
      · subst h
        simp
      · subst h
        simp
    · rfl
  · intro bd rate now h
    simp [accrue_interest, h]
  · intro bd rate
    simp [accrue_interest]
  · intro bd rate now h hlt
    simp only [accrue_interest]
    rw [if_neg h, if_neg (by omega : ¬ now - bd.last_accrual = 0)]

/-- Witness for C8: accruing on principal 1000 at 1000 bp over one year adds
exactly 100 to the accrued interest and advances the accrual timestamp. -/
theorem C8_witness :
    accrue_interest ⟨1000, 0, 0⟩ 1000 31536000 = ⟨1000, 100, 31536000⟩ := by
  have h := C8_interest_accrual.2.2.2.2 ⟨1000, 0, 0⟩ 1000 31536000 (by decide) (by decide)
  rw [h]
  decide

/-! ## Claim C10 -/

/-- C10: `get_volatility` returns `InsufficientHistory` exactly when the
asset is supported but no volatility record is stored for it; since
`add_asset` always stores a zeroed record, `get_volatility` succeeds for
every asset registered via `add_asset`, returning 7-day and 30-day
volatility 0 even before any price has been pushed — indistinguishable from
a confirmed zero-volatility reading. -/
theorem C10_get_volatility_insufficient_history :
    (∀ (s : OracleState) (a : Symbol),
      get_volatility s a = Except.error OracleError.InsufficientHistory ↔
        a ∈ s.assets ∧ s.volatility a = none) ∧
    (∀ (s : OracleState) (a : Symbol),
      get_volatility (add_asset s a) a =
        Except.ok { volatility_30d := 0, volatility_7d := 0, last_updated := 0,
                    price_history := [] }) := by
  constructor
  · intro s a
    simp only [get_volatility, is_asset_supported]
    by_cases hmem : a ∈ s.assets
    · rw [if_pos (by simpa using hmem)]
      cases hvol : s.volatility a with
      | none => simp [hmem]
      | some v => simp [hmem]
    · rw [if_neg (by simpa using hmem)]
      simp [hmem]
  · intro s a
    simp only [get_volatility, is_asset_supported, add_asset]
    rw [if_pos (by simp)]
    simp

end Vantis
